import Mathlib

/-!
# Verification of the `MultiProvider` registry
(`typescript/sdk/src/provider.ts`)

A shallow embedding of the `MultiProvider` class: a registry of blockchain
domains, each with at most one read connection (provider), one signing
connection (signer), and per-domain transaction policy (overrides and
confirmation counts).

Modelling choices:
* A JS `Map<number, T>` is an insertion-ordered association list
  (`JsMap`): `set` updates in place, keys/values iterate in insertion order.
* `throw` is modelled with `Except`: in the source, every operation performs
  all of its throws before its first mutation, so an error always leaves the
  registry unchanged.  `clearSigners` iterates with `forEach`, so its model
  carries the state accumulated before a mid-iteration throw.
* `ethers.Signer` is opaque data: an identity `key`, a flag `canConnect`
  saying whether `connect` succeeds (rebinding support), and an optional
  `provider` reference.  `signer.connect(p)` returns a copy bound to `p`
  when rebinding is supported, and throws (here: `none`) otherwise — this is
  the duck-typed "try rebind, catch failure" contract from the source.
* Providers are opaque handles; RPC-constructed providers remember their
  construction (plain vs Celo static JSON-RPC) so distinct constructions are
  distinguishable.
-/

namespace MultiProviderSpec

/-- A registered domain: canonical numeric id and human-readable name
(`Domain` from `./types`). -/
structure Domain where
  id : Nat
  name : String
deriving DecidableEq

/-- A domain reference: either a chain name or a raw numeric id
(`NameOrDomain` from `./types`). -/
inductive NameOrDomain where
  | name (s : String)
  | num (n : Nat)
deriving DecidableEq

/-- An opaque ethers provider handle.  `handle` stands for an externally
constructed provider object; `jsonRpc` / `celoJsonRpc` record the two
provider constructions performed by `registerRpcProvider`. -/
inductive Provider where
  | handle (id : Nat)
  | jsonRpc (rpc : String)
  | celoJsonRpc (rpc : String)
deriving DecidableEq

/-- An opaque ethers signer: identity `key` (e.g. underlying key material),
whether `connect` (rebinding) is supported, and the optional provider the
signer itself carries (`signer.provider`). -/
structure Signer where
  key : String
  canConnect : Bool
  provider : Option Provider
deriving DecidableEq

/-- `signer.connect(provider)`: a copy of the signer bound to `provider`,
or a throw (`none`) when the signer does not support rebinding. -/
def Signer.connect (s : Signer) (p : Provider) : Option Signer :=
  if s.canConnect then some { s with provider := some p } else none

/-- `new ethers.Wallet(privkey)`: a fresh signer with no provider that
supports `connect`. -/
def wallet (privkey : String) : Signer :=
  { key := privkey, canConnect := true, provider := none }

/-- The error kinds thrown by the registry (spec section 7), matching the
`throw new Error(...)` sites of the source. -/
inductive RegistryError where
  | DomainNotFound (s : String)
  | NotFound (kind : String)
  | MissingProvider
  | SignerHasNoProvider
  | ConnectionNotFound
  | InvariantViolation
deriving DecidableEq

/-- An `ethers.Overrides` bag, modelled as an opaque list of key/value
entries; `[]` is the empty bag `{}`. -/
abbrev Overrides := List (String × Nat)

/-- A JS `Map<number, α>`: an insertion-ordered association list. -/
abbrev JsMap (α : Type) := List (Nat × α)

/-- `map.set(k, v)`: update in place when the key is present (keeping its
position), append otherwise. -/
def mapSet : JsMap α → Nat → α → JsMap α
  | [], k, v => [(k, v)]
  | e :: t, k, v => if e.1 = k then (k, v) :: t else e :: mapSet t k v

/-- `map.get(k)`: the stored value, or `none` (undefined). -/
def mapGet : JsMap α → Nat → Option α
  | [], _ => none
  | e :: t, k => if e.1 = k then some e.2 else mapGet t k

/-- `map.has(k)`. -/
def mapHas : JsMap α → Nat → Bool
  | [], _ => false
  | e :: t, k => if e.1 = k then true else mapHas t k

/-- `map.delete(k)` (result state). -/
def mapDelete : JsMap α → Nat → JsMap α
  | [], _ => []
  | e :: t, k => if e.1 = k then mapDelete t k else e :: mapDelete t k

/-- `Array.from(map.keys())`: keys in insertion order. -/
def mapKeys (m : JsMap α) : List Nat :=
  m.map Prod.fst

/-- `Array.from(map.values())`: values in insertion order. -/
def mapValues (m : JsMap α) : List α :=
  m.map Prod.snd

/-- The `MultiProvider` state: its five private maps. -/
structure MultiProvider where
  domains : JsMap Domain
  providers : JsMap Provider
  signers : JsMap Signer
  overrides : JsMap Overrides
  confirmations : JsMap Nat
deriving DecidableEq

deriving instance DecidableEq for Except

/-- The freshly constructed `MultiProvider` (all maps empty). -/
def emptyMP : MultiProvider :=
  { domains := [], providers := [], signers := [], overrides := [],
    confirmations := [] }

/-- An ASCII letter lowered, other characters unchanged: the effect of
JS `toLowerCase()` on the characters appearing in chain names. -/
def charLower (c : Char) : Char :=
  if 'A' ≤ c ∧ c ≤ 'Z' then Char.ofNat (c.toNat + 32) else c

/-- `s.toLowerCase()`, modelled character-wise with `charLower`. -/
def strLower (s : String) : String :=
  ⟨s.data.map charLower⟩

/-- `resolveDomain(nameOrDomain)`: numbers pass through unchanged (no
existence check); strings are matched case-insensitively against the
registered domain names, returning the id of the first match in
registration-iteration order, and throwing `Domain not found` when
nothing matches. -/
def resolveDomain (mp : MultiProvider) : NameOrDomain → Except RegistryError Nat
  | .name s =>
    match (mapValues mp.domains).filter
        (fun d => strLower d.name == strLower s) with
    | [] => .error (.DomainNotFound s)
    | d :: _ => .ok d.id

  | .num n => .ok n

/-- `getFromMap(nameOrDomain, map)`: resolve, then `map.get`. -/
def getFromMap (mp : MultiProvider) (x : NameOrDomain) (m : JsMap α) :
    Except RegistryError (Option α) :=
  match resolveDomain mp x with
  | .error e => .error e
  | .ok d => .ok (mapGet m d)

/-- `mustGetFromMap(nameOrDomain, map, tname)`: like `getFromMap` but throws
`tname not found` when the value is absent. -/
def mustGetFromMap (mp : MultiProvider) (x : NameOrDomain) (m : JsMap α)
    (tname : String) : Except RegistryError α :=
  match getFromMap mp x m with
  | .error e => .error e
  | .ok none => .error (.NotFound tname)
  | .ok (some v) => .ok v

/-- `registerDomain(domain)`: insert/overwrite the entry keyed by
`domain.id`. -/
def registerDomain (mp : MultiProvider) (d : Domain) : MultiProvider :=
  { mp with domains := mapSet mp.domains d.id d }

/-- The `domainNumbers` getter: all registered domain ids. -/
def domainNumbers (mp : MultiProvider) : List Nat :=
  mapKeys mp.domains

/-- The `missingProviders` getter, exactly as written in the source:
`domainNumbers.filter((number) => this.providers.has(number))`. -/
def missingProviders (mp : MultiProvider) : List Nat :=
  (domainNumbers mp).filter (fun number => mapHas mp.providers number)

/-- `getDomain`. -/
def getDomain (mp : MultiProvider) (x : NameOrDomain) :
    Except RegistryError (Option Domain) :=
  getFromMap mp x mp.domains

/-- `mustGetDomain`: throws `NotFound "Domain"` when absent. -/
def mustGetDomain (mp : MultiProvider) (x : NameOrDomain) :
    Except RegistryError Domain :=
  mustGetFromMap mp x mp.domains "Domain"

/-- `getProvider`. -/
def getProvider (mp : MultiProvider) (x : NameOrDomain) :
    Except RegistryError (Option Provider) :=
  getFromMap mp x mp.providers

/-- `getSigner`. -/
def getSigner (mp : MultiProvider) (x : NameOrDomain) :
    Except RegistryError (Option Signer) :=
  getFromMap mp x mp.signers

/-- `unregisterSigner(nameOrDomain)`: no-op when no signer is stored;
throws `signer was missing provider. How?` when the stored signer lacks a
provider; otherwise deletes the signer and, when the domain has no provider
entry, promotes the signer's provider into the provider slot. -/
def unregisterSigner (mp : MultiProvider) (x : NameOrDomain) :
    Except RegistryError MultiProvider :=
  match resolveDomain mp x with
  | .error e => .error e
  | .ok domain =>
    if mapHas mp.signers domain then
      match mapGet mp.signers domain with
      | none => .error .InvariantViolation
      | some signer =>
        match signer.provider with
        | none => .error .InvariantViolation
        | some sp =>
          let mp1 : MultiProvider :=
            { mp with signers := mapDelete mp.signers domain }
          match getProvider mp1 x with
          | .error e => .error e
          | .ok none =>
            .ok { mp1 with providers := mapSet mp1.providers domain sp }
          | .ok (some _) => .ok mp1
    else
      .ok mp

/-- `registerProvider(nameOrDomain, provider)`: requires a registered
domain (`mustGetDomain`); tries to reconnect an existing signer to the new
provider, dropping it via `unregisterSigner` when reconnection throws; then
stores the provider unconditionally. -/
def registerProvider (mp : MultiProvider) (x : NameOrDomain) (provider : Provider) :
    Except RegistryError MultiProvider :=
  match mustGetDomain mp x with
  | .error e => .error e
  | .ok dom =>
    let domain := dom.id
    let step : Except RegistryError MultiProvider :=
      match mapGet mp.signers domain with
      | some signer =>
        match signer.connect provider with
        | some s1 => .ok { mp with signers := mapSet mp.signers domain s1 }
        | none => unregisterSigner mp (.num domain)
      | none => .ok mp
    match step with
    | .error e => .error e
    | .ok mp1 => .ok { mp1 with providers := mapSet mp1.providers domain provider }

/-- `registerRpcProvider(nameOrDomain, rpc)`: a Celo-specific provider for
the names `alfajores`/`celo` (strict equality against the raw
`nameOrDomain`), a plain static JSON-RPC provider otherwise. -/
def registerRpcProvider (mp : MultiProvider) (x : NameOrDomain) (rpc : String) :
    Except RegistryError MultiProvider :=
  match resolveDomain mp x with
  | .error e => .error e
  | .ok domain =>
    if x = .name "alfajores" ∨ x = .name "celo" then
      registerProvider mp (.num domain) (.celoJsonRpc rpc)
    else
      registerProvider mp (.num domain) (.jsonRpc rpc)

/-- The tail of `registerSigner` after the provider-present branch has been
skipped or has thrown: fail when the signer carries no provider, else
register the signer's own provider and store the signer as-is. -/
def registerSignerFallback (mp : MultiProvider) (domain : Nat) (signer : Signer) :
    Except RegistryError MultiProvider :=
  match signer.provider with
  | none => .error .SignerHasNoProvider
  | some sp =>
    match registerProvider mp (.num domain) sp with
    | .error e => .error e
    | .ok mp1 => .ok { mp1 with signers := mapSet mp1.signers domain signer }

/-- `registerSigner(nameOrDomain, signer)`: throws `MissingProvider` when
neither the registry nor the signer has a provider; with a registered
provider it rebinds the signer to it (the source connects twice: the local
`signer` variable is rebound, then the doubly-connected copy is stored), a
throw falling through to the fallback with whatever the local variable
holds at that point. -/
def registerSigner (mp : MultiProvider) (x : NameOrDomain) (signer : Signer) :
    Except RegistryError MultiProvider :=
  match resolveDomain mp x with
  | .error e => .error e
  | .ok domain =>
    let provider := mapGet mp.providers domain
    if provider.isNone && signer.provider.isNone then
      .error .MissingProvider
    else
      match provider with
      | some p =>
        match signer.connect p with
        | some s1 =>
          match s1.connect p with
          | some s2 => .ok { mp with signers := mapSet mp.signers domain s2 }
          | none => registerSignerFallback mp domain s1
        | none => registerSignerFallback mp domain signer
      | none => registerSignerFallback mp domain signer

/-- One `forEach` pass of `clearSigners` over a list of domain ids.
`unregisterSigner` throws only before mutating, so a mid-iteration throw
leaves the state accumulated so far and aborts the iteration. -/
def clearSignersAux : MultiProvider → List Nat → MultiProvider × Option RegistryError
  | mp, [] => (mp, none)
  | mp, d :: rest =>
    match unregisterSigner mp (.num d) with
    | .ok mp1 => clearSignersAux mp1 rest
    | .error e => (mp, some e)

/-- `clearSigners()`: `unregisterSigner` for every registered domain id. -/
def clearSigners (mp : MultiProvider) : MultiProvider × Option RegistryError :=
  clearSignersAux mp (domainNumbers mp)

/-- `registerWalletSigner(nameOrDomain, privkey)`: register a fresh wallet
signer for the resolved domain. -/
def registerWalletSigner (mp : MultiProvider) (x : NameOrDomain) (privkey : String) :
    Except RegistryError MultiProvider :=
  match resolveDomain mp x with
  | .error e => .error e
  | .ok domain => registerSigner mp (.num domain) (wallet privkey)

/-- `registerOverrides` (via `setMap`). -/
def registerOverrides (mp : MultiProvider) (x : NameOrDomain) (ov : Overrides) :
    Except RegistryError MultiProvider :=
  match resolveDomain mp x with
  | .error e => .error e
  | .ok d => .ok { mp with overrides := mapSet mp.overrides d ov }

/-- `getOverrides`: `getFromMap(...) || {}` — an overrides object is always
truthy, so only absence yields the empty bag. -/
def getOverrides (mp : MultiProvider) (x : NameOrDomain) :
    Except RegistryError Overrides :=
  match getFromMap mp x mp.overrides with
  | .error e => .error e
  | .ok o => .ok (o.getD [])

/-- `registerConfirmations` (via `setMap`). -/
def registerConfirmations (mp : MultiProvider) (x : NameOrDomain) (c : Nat) :
    Except RegistryError MultiProvider :=
  match resolveDomain mp x with
  | .error e => .error e
  | .ok d => .ok { mp with confirmations := mapSet mp.confirmations d c }

/-- `getConfirmations`: `getFromMap(...) || 0` — a stored `0` is falsy in
JS, so both absence and a stored `0` yield `0`. -/
def getConfirmations (mp : MultiProvider) (x : NameOrDomain) :
    Except RegistryError Nat :=
  match getFromMap mp x mp.confirmations with
  | .error e => .error e
  | .ok none => .ok 0
  | .ok (some v) => .ok (if v == 0 then 0 else v)

/-- `getConnection`: the signer when present, else the provider. -/
def getConnection (mp : MultiProvider) (x : NameOrDomain) :
    Except RegistryError (Option (Signer ⊕ Provider)) :=
  match getSigner mp x with
  | .error e => .error e
  | .ok (some s) => .ok (some (.inl s))
  | .ok none =>
    match getProvider mp x with
    | .error e => .error e
    | .ok (some p) => .ok (some (.inr p))
    | .ok none => .ok none

/-- Registry states reachable from a fresh `MultiProvider` by the public
operations.  A throwing call leaves the state unchanged (already reachable);
`clearSigners` may observably stop mid-iteration, so its constructor keeps
whatever state the iteration produced. -/
inductive Reachable : MultiProvider → Prop where
  | init : Reachable emptyMP
  | domainStep {mp : MultiProvider} (d : Domain) :
      Reachable mp → Reachable (registerDomain mp d)
  | providerStep {mp mp' : MultiProvider} {x : NameOrDomain} {p : Provider} :
      Reachable mp → registerProvider mp x p = .ok mp' → Reachable mp'
  | rpcProviderStep {mp mp' : MultiProvider} {x : NameOrDomain} {rpc : String} :
      Reachable mp → registerRpcProvider mp x rpc = .ok mp' → Reachable mp'
  | signerStep {mp mp' : MultiProvider} {x : NameOrDomain} {s : Signer} :
      Reachable mp → registerSigner mp x s = .ok mp' → Reachable mp'
  | walletSignerStep {mp mp' : MultiProvider} {x : NameOrDomain} {pk : String} :
      Reachable mp → registerWalletSigner mp x pk = .ok mp' → Reachable mp'
  | unregisterStep {mp mp' : MultiProvider} {x : NameOrDomain} :
      Reachable mp → unregisterSigner mp x = .ok mp' → Reachable mp'
  | clearStep {mp : MultiProvider} :
      Reachable mp → Reachable (clearSigners mp).1
  | overridesStep {mp mp' : MultiProvider} {x : NameOrDomain} {ov : Overrides} :
      Reachable mp → registerOverrides mp x ov = .ok mp' → Reachable mp'
  | confirmationsStep {mp mp' : MultiProvider} {x : NameOrDomain} {c : Nat} :
      Reachable mp → registerConfirmations mp x c = .ok mp' → Reachable mp'

/-! ## Association-list (JS `Map`) lemmas -/

theorem mapHas_eq_isSome (m : JsMap α) (k : Nat) :
    mapHas m k = (mapGet m k).isSome := by
  induction m with
  | nil => rfl
  | cons e t ih =>
    by_cases h : e.1 = k
    · simp [mapHas, mapGet, h]
    · simpa [mapHas, mapGet, h] using ih

theorem mapGet_mapSet_self (m : JsMap α) (k : Nat) (v : α) :
    mapGet (mapSet m k v) k = some v := by
  induction m with
  | nil => simp [mapSet, mapGet]
  | cons e t ih =>
    by_cases h : e.1 = k
    · simp [mapSet, mapGet, h]
    · simpa [mapSet, mapGet, h] using ih

theorem mapGet_mapSet_ne (m : JsMap α) (k k' : Nat) (v : α) (h : k' ≠ k) :
    mapGet (mapSet m k v) k' = mapGet m k' := by
  have hkk : ¬ ((k : Nat) = k') := fun hh => h hh.symm
  induction m with
  | nil => simp [mapSet, mapGet, hkk]
  | cons e t ih =>
    by_cases he : e.1 = k
    · simp only [mapSet, if_pos he, mapGet, he, if_neg hkk]
    · simp only [mapSet, if_neg he, mapGet]
      rw [ih]

theorem mapHas_mapSet (m : JsMap α) (k j : Nat) (v : α) :
    mapHas (mapSet m k v) j = true ↔ (j = k ∨ mapHas m j = true) := by
  rw [mapHas_eq_isSome, mapHas_eq_isSome]
  by_cases h : j = k
  · subst h; simp [mapGet_mapSet_self]
  · rw [mapGet_mapSet_ne m k j v h]; simp [h]

theorem mapGet_mapDelete_self (m : JsMap α) (k : Nat) :
    mapGet (mapDelete m k) k = none := by
  induction m with
  | nil => rfl
  | cons e t ih =>
    by_cases he : e.1 = k
    · simpa [mapDelete, he] using ih
    · simpa [mapDelete, mapGet, he] using ih

theorem mapGet_mapDelete_ne (m : JsMap α) (k k' : Nat) (h : k' ≠ k) :
    mapGet (mapDelete m k) k' = mapGet m k' := by
  induction m with
  | nil => rfl
  | cons e t ih =>
    by_cases he : e.1 = k
    · have hne : ¬ (e.1 = k') := by rw [he]; exact fun hh => h hh.symm
      rw [mapDelete, if_pos he, ih, mapGet, if_neg hne]
    · rw [mapDelete, if_neg he, mapGet, mapGet, ih]

theorem mapHas_mem_mapKeys (m : JsMap α) (k : Nat) :
    mapHas m k = true ↔ k ∈ mapKeys m := by
  induction m with
  | nil => simp [mapHas, mapKeys]
  | cons e t ih =>
    by_cases he : e.1 = k
    · simp [mapHas, mapKeys, he]
    · simp only [mapHas, he, if_false, mapKeys, List.map_cons, List.mem_cons]
      rw [ih]
      constructor
      · exact Or.inr
      · intro h
        rcases h with h | h
        · exact absurd h.symm he
        · simpa [mapKeys] using h

theorem mapGet_isSome_of_some {m : JsMap α} {k : Nat} {v : α}
    (h : mapGet m k = some v) : mapHas m k = true := by
  rw [mapHas_eq_isSome, h]; rfl

theorem mapHas_false_of_none {m : JsMap α} {k : Nat}
    (h : mapGet m k = none) : mapHas m k = false := by
  rw [mapHas_eq_isSome, h]; rfl

/-! ## Resolution only depends on the domain directory -/

theorem resolveDomain_congr (mp mp' : MultiProvider) (x : NameOrDomain)
    (h : mp'.domains = mp.domains) : resolveDomain mp' x = resolveDomain mp x := by
  cases x <;> simp [resolveDomain, h]

theorem resolveDomain_num (mp : MultiProvider) (n : Nat) :
    resolveDomain mp (.num n) = .ok n := rfl

theorem getFromMap_num (mp : MultiProvider) (d : Nat) (m : JsMap α) :
    getFromMap mp (.num d) m = .ok (mapGet m d) := rfl

/-! ## `unregisterSigner` characterization -/

theorem unregisterSigner_eq_num (mp : MultiProvider) (x : NameOrDomain)
    (domain : Nat) (h : resolveDomain mp x = .ok domain) :
    unregisterSigner mp x = unregisterSigner mp (.num domain) := by
  unfold unregisterSigner
  rw [h, resolveDomain_num]
  have hgp : ∀ sg : JsMap Signer,
      getProvider { mp with signers := sg } x
        = getProvider { mp with signers := sg } (.num domain) := by
    intro sg
    unfold getProvider getFromMap
    rw [resolveDomain_congr mp { mp with signers := sg } x rfl, h, resolveDomain_num]
  simp only [hgp]

theorem unregisterSigner_none (mp : MultiProvider) (d0 : Nat)
    (h : mapGet mp.signers d0 = none) :
    unregisterSigner mp (.num d0) = .ok mp := by
  have hh : mapHas mp.signers d0 = false := mapHas_false_of_none h
  simp [unregisterSigner, resolveDomain_num, hh]

theorem unregisterSigner_noProv (mp : MultiProvider) (d0 : Nat) (s : Signer)
    (hs : mapGet mp.signers d0 = some s) (hp : s.provider = none) :
    unregisterSigner mp (.num d0) = .error .InvariantViolation := by
  have hh : mapHas mp.signers d0 = true := mapGet_isSome_of_some hs
  simp [unregisterSigner, resolveDomain_num, hh, hs, hp]

theorem unregisterSigner_some (mp : MultiProvider) (d0 : Nat) (s : Signer)
    (p : Provider) (hs : mapGet mp.signers d0 = some s)
    (hp : s.provider = some p) :
    unregisterSigner mp (.num d0) = .ok
      { mp with signers := mapDelete mp.signers d0,
                providers := match mapGet mp.providers d0 with
                  | none => mapSet mp.providers d0 p
                  | some _ => mp.providers } := by
  have hh : mapHas mp.signers d0 = true := mapGet_isSome_of_some hs
  cases hpp : mapGet mp.providers d0 with
  | none =>
    simp [unregisterSigner, resolveDomain_num, hh, hs, hp, getProvider,
      getFromMap, hpp]
  | some q =>
    simp [unregisterSigner, resolveDomain_num, hh, hs, hp, getProvider,
      getFromMap, hpp]

theorem unregisterSigner_ok_resolve {mp mp' : MultiProvider} {x : NameOrDomain}
    (h : unregisterSigner mp x = .ok mp') :
    ∃ domain, resolveDomain mp x = .ok domain := by
  unfold unregisterSigner at h
  cases hres : resolveDomain mp x with
  | error e => rw [hres] at h; exact absurd h (by simp)
  | ok d => exact ⟨d, rfl⟩

theorem unregisterSigner_ok_cases {mp mp' : MultiProvider} {x : NameOrDomain}
    (h : unregisterSigner mp x = .ok mp') :
    ∃ domain, resolveDomain mp x = .ok domain ∧
      ((mapGet mp.signers domain = none ∧ mp' = mp) ∨
       (∃ s p, mapGet mp.signers domain = some s ∧ s.provider = some p ∧
          mp' = { mp with
                  signers := mapDelete mp.signers domain,
                  providers := match mapGet mp.providers domain with
                    | none => mapSet mp.providers domain p
                    | some _ => mp.providers })) := by
  obtain ⟨domain, hres⟩ := unregisterSigner_ok_resolve h
  rw [unregisterSigner_eq_num mp x domain hres] at h
  refine ⟨domain, hres, ?_⟩
  cases hsg : mapGet mp.signers domain with
  | none =>
    rw [unregisterSigner_none mp domain hsg] at h
    exact Or.inl ⟨rfl, (Except.ok.inj h).symm⟩
  | some s =>
    cases hsp : s.provider with
    | none => rw [unregisterSigner_noProv mp domain s hsg hsp] at h; cases h
    | some p =>
      rw [unregisterSigner_some mp domain s p hsg hsp] at h
      exact Or.inr ⟨s, p, rfl, hsp, (Except.ok.inj h).symm⟩

theorem unregisterSigner_ok_frame {mp mp' : MultiProvider} {x : NameOrDomain}
    (h : unregisterSigner mp x = .ok mp') :
    mp'.domains = mp.domains ∧ mp'.overrides = mp.overrides
      ∧ mp'.confirmations = mp.confirmations := by
  obtain ⟨domain, -, hc⟩ := unregisterSigner_ok_cases h
  rcases hc with ⟨-, rfl⟩ | ⟨s, p, -, -, rfl⟩
  · exact ⟨rfl, rfl, rfl⟩
  · exact ⟨rfl, rfl, rfl⟩

/-! ## `mustGetDomain` and `registerProvider` inversion -/

theorem mustGetDomain_ok {mp : MultiProvider} {x : NameOrDomain} {dom : Domain}
    (h : mustGetDomain mp x = .ok dom) :
    ∃ n, resolveDomain mp x = .ok n ∧ mapGet mp.domains n = some dom := by
  unfold mustGetDomain mustGetFromMap getFromMap at h
  cases hres : resolveDomain mp x with
  | error e => rw [hres] at h; simp at h
  | ok n =>
    cases hget : mapGet mp.domains n with
    | none => rw [hres] at h; simp [hget] at h
    | some v =>
      rw [hres] at h
      simp [hget] at h
      exact ⟨n, rfl, by rw [hget, h]⟩

theorem connect_some {s s1 : Signer} {p : Provider} (h : s.connect p = some s1) :
    s1 = { s with provider := some p } := by
  unfold Signer.connect at h
  cases hc : s.canConnect <;> simp [hc] at h
  exact h.symm

/-! ## `registerProvider` evaluation lemmas -/

theorem registerProvider_errOfMust {mp : MultiProvider} {x : NameOrDomain}
    {P : Provider} {e : RegistryError} (hmg : mustGetDomain mp x = .error e) :
    registerProvider mp x P = .error e := by
  simp only [registerProvider, hmg]

theorem registerProvider_eq_noSigner {mp : MultiProvider} {x : NameOrDomain}
    {P : Provider} {dom : Domain} (hmg : mustGetDomain mp x = .ok dom)
    (hsg : mapGet mp.signers dom.id = none) :
    registerProvider mp x P
      = .ok { mp with providers := mapSet mp.providers dom.id P } := by
  simp only [registerProvider, hmg, hsg]

theorem registerProvider_eq_reconnect {mp : MultiProvider} {x : NameOrDomain}
    {P : Provider} {dom : Domain} {s s1 : Signer}
    (hmg : mustGetDomain mp x = .ok dom) (hsg : mapGet mp.signers dom.id = some s)
    (hc : s.connect P = some s1) :
    registerProvider mp x P
      = .ok { mp with
              signers := mapSet mp.signers dom.id s1,
              providers := mapSet mp.providers dom.id P } := by
  simp only [registerProvider, hmg, hsg, hc]

theorem registerProvider_eq_dropSigner {mp mp1 : MultiProvider}
    {x : NameOrDomain} {P : Provider} {dom : Domain} {s : Signer}
    (hmg : mustGetDomain mp x = .ok dom) (hsg : mapGet mp.signers dom.id = some s)
    (hc : s.connect P = none) (hu : unregisterSigner mp (.num dom.id) = .ok mp1) :
    registerProvider mp x P
      = .ok { mp1 with providers := mapSet mp1.providers dom.id P } := by
  simp only [registerProvider, hmg, hsg, hc, hu]

theorem registerProvider_eq_dropErr {mp : MultiProvider} {x : NameOrDomain}
    {P : Provider} {dom : Domain} {s : Signer} {e : RegistryError}
    (hmg : mustGetDomain mp x = .ok dom) (hsg : mapGet mp.signers dom.id = some s)
    (hc : s.connect P = none) (hu : unregisterSigner mp (.num dom.id) = .error e) :
    registerProvider mp x P = .error e := by
  simp only [registerProvider, hmg, hsg, hc, hu]

theorem registerProvider_ok_cases {mp mp' : MultiProvider} {x : NameOrDomain}
    {P : Provider} (h : registerProvider mp x P = .ok mp') :
    ∃ dom, mustGetDomain mp x = .ok dom ∧
      ∃ mp1, mp' = { mp1 with providers := mapSet mp1.providers dom.id P } ∧
        ((mapGet mp.signers dom.id = none ∧ mp1 = mp) ∨
         (∃ s s1, mapGet mp.signers dom.id = some s ∧ s.connect P = some s1 ∧
            mp1 = { mp with signers := mapSet mp.signers dom.id s1 }) ∨
         (∃ s, mapGet mp.signers dom.id = some s ∧ s.connect P = none ∧
            unregisterSigner mp (.num dom.id) = .ok mp1)) := by
  cases hmg : mustGetDomain mp x with
  | error e => rw [registerProvider_errOfMust hmg] at h; exact Except.noConfusion h
  | ok dom =>
    refine ⟨dom, rfl, ?_⟩
    cases hsg : mapGet mp.signers dom.id with
    | none =>
      rw [registerProvider_eq_noSigner hmg hsg] at h
      exact ⟨mp, (Except.ok.inj h).symm, Or.inl ⟨rfl, rfl⟩⟩
    | some s =>
      cases hc : s.connect P with
      | some s1 =>
        rw [registerProvider_eq_reconnect hmg hsg hc] at h
        exact ⟨{ mp with signers := mapSet mp.signers dom.id s1 },
          (Except.ok.inj h).symm, Or.inr (Or.inl ⟨s, s1, rfl, hc, rfl⟩)⟩
      | none =>
        cases hu : unregisterSigner mp (.num dom.id) with
        | error e =>
          rw [registerProvider_eq_dropErr hmg hsg hc hu] at h
          exact Except.noConfusion h
        | ok mp1 =>
          rw [registerProvider_eq_dropSigner hmg hsg hc hu] at h
          exact ⟨mp1, (Except.ok.inj h).symm, Or.inr (Or.inr ⟨s, rfl, hc, rfl⟩)⟩

theorem registerProvider_ok_frame {mp mp' : MultiProvider} {x : NameOrDomain}
    {P : Provider} (h : registerProvider mp x P = .ok mp') :
    mp'.domains = mp.domains ∧ mp'.overrides = mp.overrides
      ∧ mp'.confirmations = mp.confirmations := by
  obtain ⟨dom, hmg, mp1, rfl, hcase⟩ := registerProvider_ok_cases h
  rcases hcase with ⟨-, rfl⟩ | ⟨s, s1, -, -, rfl⟩ | ⟨s, -, -, hu⟩
  · exact ⟨rfl, rfl, rfl⟩
  · exact ⟨rfl, rfl, rfl⟩
  · obtain ⟨hd, ho, hc⟩ := unregisterSigner_ok_frame hu
    exact ⟨hd, ho, hc⟩

/-! ## The consistency invariant and its preservation -/

/-- The registry's internal consistency invariant: the directory keys its
entries by their own id; every stored signer carries a provider reference
and sits under a registered domain id; and every provider sits under a
registered domain id. -/
def GoodState (mp : MultiProvider) : Prop :=
  (∀ k dom, mapGet mp.domains k = some dom → dom.id = k)
  ∧ (∀ d s, mapGet mp.signers d = some s → s.provider ≠ none)
  ∧ (∀ d s, mapGet mp.signers d = some s → mapHas mp.domains d = true)
  ∧ (∀ d, mapHas mp.providers d = true → mapHas mp.domains d = true)

theorem good_emptyMP : GoodState emptyMP := by
  refine ⟨?_, ?_, ?_, ?_⟩
  · intro k dom hk; simp [emptyMP, mapGet] at hk
  · intro d s hs; simp [emptyMP, mapGet] at hs
  · intro d s hs; simp [emptyMP, mapGet] at hs
  · intro d hd; simp [emptyMP, mapHas] at hd

theorem good_registerDomain {mp : MultiProvider} (d : Domain)
    (hg : GoodState mp) : GoodState (registerDomain mp d) := by
  obtain ⟨h1, h2, h3, h4⟩ := hg
  refine ⟨?_, h2, ?_, ?_⟩
  · intro k dom hk
    by_cases hkd : k = d.id
    · subst hkd
      rw [show (registerDomain mp d).domains = mapSet mp.domains d.id d from rfl,
        mapGet_mapSet_self] at hk
      rw [← Option.some.inj hk]
    · rw [show (registerDomain mp d).domains = mapSet mp.domains d.id d from rfl,
        mapGet_mapSet_ne mp.domains d.id k d hkd] at hk
      exact h1 k dom hk
  · intro d' s hs
    exact (mapHas_mapSet mp.domains d.id d' d).2 (Or.inr (h3 d' s hs))
  · intro d' hd'
    exact (mapHas_mapSet mp.domains d.id d' d).2 (Or.inr (h4 d' hd'))

theorem good_unregisterSigner {mp mp' : MultiProvider} {x : NameOrDomain}
    (hg : GoodState mp) (h : unregisterSigner mp x = .ok mp') : GoodState mp' := by
  obtain ⟨domain, -, hc⟩ := unregisterSigner_ok_cases h
  rcases hc with ⟨-, rfl⟩ | ⟨s, p, hs, hp, rfl⟩
  · exact hg
  · obtain ⟨h1, h2, h3, h4⟩ := hg
    refine ⟨h1, ?_, ?_, ?_⟩
    · intro d' s' hs'
      by_cases hd : d' = domain
      · subst hd; rw [mapGet_mapDelete_self] at hs'; cases hs'
      · rw [mapGet_mapDelete_ne mp.signers domain d' hd] at hs'
        exact h2 d' s' hs'
    · intro d' s' hs'
      by_cases hd : d' = domain
      · subst hd; rw [mapGet_mapDelete_self] at hs'; cases hs'
      · rw [mapGet_mapDelete_ne mp.signers domain d' hd] at hs'
        exact h3 d' s' hs'
    · intro d' hd'
      have hd'' : mapHas (match mapGet mp.providers domain with
          | none => mapSet mp.providers domain p
          | some _ => mp.providers) d' = true := hd'
      cases hpp : mapGet mp.providers domain with
      | none =>
        rw [hpp] at hd''
        rcases (mapHas_mapSet mp.providers domain d' p).1 hd'' with h' | hold
        · subst h'; exact h3 d' s hs
        · exact h4 d' hold
      | some q =>
        rw [hpp] at hd''
        exact h4 d' hd''

theorem good_registerProvider {mp mp' : MultiProvider} {x : NameOrDomain}
    {P : Provider} (hg : GoodState mp) (h : registerProvider mp x P = .ok mp') :
    GoodState mp' := by
  obtain ⟨dom, hmg, mp1, rfl, hcase⟩ := registerProvider_ok_cases h
  obtain ⟨n, hres, hget⟩ := mustGetDomain_ok hmg
  have hid : dom.id = n := hg.1 n dom hget
  have hdomHas : mapHas mp.domains dom.id = true := by
    rw [hid]; exact mapGet_isSome_of_some hget
  have hmp1 : GoodState mp1 ∧ mp1.domains = mp.domains := by
    rcases hcase with ⟨hsg, rfl⟩ | ⟨s, s1, hsg, hc, rfl⟩ | ⟨s, hsg, hc, hu⟩
    · exact ⟨hg, rfl⟩
    · obtain ⟨h1, h2, h3, h4⟩ := hg
      refine ⟨⟨h1, ?_, ?_, h4⟩, rfl⟩
      · intro d' s' hs'
        by_cases hd : d' = dom.id
        · subst hd
          rw [mapGet_mapSet_self] at hs'
          rw [← Option.some.inj hs', connect_some hc]
          simp
        · rw [mapGet_mapSet_ne mp.signers dom.id d' s1 hd] at hs'
          exact h2 d' s' hs'
      · intro d' s' hs'
        by_cases hd : d' = dom.id
        · subst hd; exact hdomHas
        · rw [mapGet_mapSet_ne mp.signers dom.id d' s1 hd] at hs'
          exact h3 d' s' hs'
    · exact ⟨good_unregisterSigner hg hu, (unregisterSigner_ok_frame hu).1⟩
  obtain ⟨⟨g1, g2, g3, g4⟩, hdz⟩ := hmp1
  refine ⟨g1, g2, g3, ?_⟩
  intro d' hd'
  rcases (mapHas_mapSet mp1.providers dom.id d' P).1 hd' with h' | hold
  · subst h'
    show mapHas mp1.domains dom.id = true
    rw [hdz]; exact hdomHas
  · exact g4 d' hold

theorem good_registerSignerFallback {mp mp' : MultiProvider} {domain : Nat}
    {S : Signer} (hg : GoodState mp)
    (h : registerSignerFallback mp domain S = .ok mp') : GoodState mp' := by
  unfold registerSignerFallback at h
  cases hsp : S.provider with
  | none => rw [hsp] at h; exact Except.noConfusion h
  | some sp =>
    simp only [hsp] at h
    cases hrp : registerProvider mp (.num domain) sp with
    | error e => simp only [hrp] at h; exact Except.noConfusion h
    | ok mp1 =>
      simp only [hrp] at h
      have hg1 := good_registerProvider hg hrp
      obtain ⟨dom, hmg, -⟩ := registerProvider_ok_cases hrp
      obtain ⟨n, hres, hget⟩ := mustGetDomain_ok hmg
      have hn : n = domain := by
        rw [resolveDomain_num] at hres; exact (Except.ok.inj hres).symm
      have hdomHas : mapHas mp1.domains domain = true := by
        rw [(registerProvider_ok_frame hrp).1, ← hn]
        exact mapGet_isSome_of_some hget
      obtain ⟨g1, g2, g3, g4⟩ := hg1
      rw [← Except.ok.inj h]
      refine ⟨g1, ?_, ?_, g4⟩
      · intro d' s' hs'
        by_cases hd : d' = domain
        · subst hd
          rw [mapGet_mapSet_self] at hs'
          rw [← Option.some.inj hs', hsp]
          simp
        · rw [mapGet_mapSet_ne mp1.signers domain d' S hd] at hs'
          exact g2 d' s' hs'
      · intro d' s' hs'
        by_cases hd : d' = domain
        · subst hd; exact hdomHas
        · rw [mapGet_mapSet_ne mp1.signers domain d' S hd] at hs'
          exact g3 d' s' hs'

theorem good_registerSigner {mp mp' : MultiProvider} {x : NameOrDomain}
    {S : Signer} (hg : GoodState mp) (h : registerSigner mp x S = .ok mp') :
    GoodState mp' := by
  unfold registerSigner at h
  cases hres : resolveDomain mp x with
  | error e => rw [hres] at h; exact Except.noConfusion h
  | ok domain =>
    rw [hres] at h
    dsimp only at h
    split at h
    · exact Except.noConfusion h
    · cases hpp : mapGet mp.providers domain with
      | none =>
        simp only [hpp] at h
        exact good_registerSignerFallback hg h
      | some p =>
        simp only [hpp] at h
        cases hc1 : S.connect p with
        | none =>
          simp only [hc1] at h
          exact good_registerSignerFallback hg h
        | some s1 =>
          simp only [hc1] at h
          cases hc2 : s1.connect p with
          | none =>
            simp only [hc2] at h
            exact good_registerSignerFallback hg h
          | some s2 =>
            simp only [hc2] at h
            obtain ⟨h1, h2, h3, h4⟩ := hg
            have hdomHas : mapHas mp.domains domain = true :=
              h4 domain (mapGet_isSome_of_some hpp)
            rw [← Except.ok.inj h]
            refine ⟨h1, ?_, ?_, h4⟩
            · intro d' s' hs'
              by_cases hd : d' = domain
              · subst hd
                rw [mapGet_mapSet_self] at hs'
                rw [← Option.some.inj hs', connect_some hc2]
                simp
              · rw [mapGet_mapSet_ne mp.signers domain d' s2 hd] at hs'
                exact h2 d' s' hs'
            · intro d' s' hs'
              by_cases hd : d' = domain
              · subst hd; exact hdomHas
              · rw [mapGet_mapSet_ne mp.signers domain d' s2 hd] at hs'
                exact h3 d' s' hs'

theorem good_registerRpcProvider {mp mp' : MultiProvider} {x : NameOrDomain}
    {rpc : String} (hg : GoodState mp)
    (h : registerRpcProvider mp x rpc = .ok mp') : GoodState mp' := by
  unfold registerRpcProvider at h
  cases hres : resolveDomain mp x with
  | error e => rw [hres] at h; exact Except.noConfusion h
  | ok domain =>
    rw [hres] at h
    dsimp only at h
    split at h
    · exact good_registerProvider hg h
    · exact good_registerProvider hg h

theorem good_registerWalletSigner {mp mp' : MultiProvider} {x : NameOrDomain}
    {pk : String} (hg : GoodState mp)
    (h : registerWalletSigner mp x pk = .ok mp') : GoodState mp' := by
  unfold registerWalletSigner at h
  cases hres : resolveDomain mp x with
  | error e => rw [hres] at h; exact Except.noConfusion h
  | ok domain => rw [hres] at h; exact good_registerSigner hg h

theorem good_clearSignersAux (L : List Nat) :
    ∀ mp : MultiProvider, GoodState mp → GoodState (clearSignersAux mp L).1 := by
  induction L with
  | nil => intro mp hg; exact hg
  | cons d rest ih =>
    intro mp hg
    unfold clearSignersAux
    cases h : unregisterSigner mp (.num d) with
    | ok mp1 => exact ih mp1 (good_unregisterSigner hg h)
    | error e => exact hg

theorem good_registerOverrides {mp mp' : MultiProvider} {x : NameOrDomain}
    {ov : Overrides} (hg : GoodState mp)
    (h : registerOverrides mp x ov = .ok mp') : GoodState mp' := by
  unfold registerOverrides at h
  cases hres : resolveDomain mp x with
  | error e => rw [hres] at h; exact Except.noConfusion h
  | ok d =>
    rw [hres] at h
    rw [← Except.ok.inj h]
    exact hg

theorem good_registerConfirmations {mp mp' : MultiProvider} {x : NameOrDomain}
    {c : Nat} (hg : GoodState mp)
    (h : registerConfirmations mp x c = .ok mp') : GoodState mp' := by
  unfold registerConfirmations at h
  cases hres : resolveDomain mp x with
  | error e => rw [hres] at h; exact Except.noConfusion h
  | ok d =>
    rw [hres] at h
    rw [← Except.ok.inj h]
    exact hg

/-! ## `clearSigners` characterization -/

theorem orElse_none (o : Option α) : o.orElse (fun _ => none) = o := by
  cases o <;> rfl

/-- The observable effect of a single `unregisterSigner(d0)` call on a state
whose stored signers all carry providers: it succeeds, deletes the signer at
`d0`, promotes its provider when the provider slot was empty, and touches
nothing else. -/
theorem unregisterSigner_num_step (mp : MultiProvider) (d0 : Nat)
    (h : ∀ d s, mapGet mp.signers d = some s → s.provider ≠ none) :
    ∃ mp2, unregisterSigner mp (.num d0) = .ok mp2
      ∧ mp2.domains = mp.domains
      ∧ mapGet mp2.signers d0 = none
      ∧ (∀ d, d ≠ d0 → mapGet mp2.signers d = mapGet mp.signers d)
      ∧ mapGet mp2.providers d0 = ((mapGet mp.providers d0).orElse
          (fun _ => (mapGet mp.signers d0).bind Signer.provider))
      ∧ (∀ d, d ≠ d0 → mapGet mp2.providers d = mapGet mp.providers d) := by
  cases hsg : mapGet mp.signers d0 with
  | none =>
    refine ⟨mp, unregisterSigner_none mp d0 hsg, rfl, hsg, fun d _ => rfl, ?_,
      fun d _ => rfl⟩
    simp only [Option.bind]
    rw [orElse_none]
  | some s =>
    cases hsp : s.provider with
    | none => exact absurd hsp (h d0 s hsg)
    | some p =>
      refine ⟨_, unregisterSigner_some mp d0 s p hsg hsp, rfl, ?_, ?_, ?_, ?_⟩
      · exact mapGet_mapDelete_self mp.signers d0
      · intro d hd; exact mapGet_mapDelete_ne mp.signers d0 d hd
      · show mapGet (match mapGet mp.providers d0 with
            | none => mapSet mp.providers d0 p
            | some _ => mp.providers) d0 = _
        cases hpp : mapGet mp.providers d0 with
        | none =>
          simp only [Option.bind, Option.orElse, hsp]
          exact mapGet_mapSet_self mp.providers d0 p
        | some q =>
          simp only [Option.orElse]
          exact hpp
      · intro d hd
        show mapGet (match mapGet mp.providers d0 with
            | none => mapSet mp.providers d0 p
            | some _ => mp.providers) d = _
        cases hpp : mapGet mp.providers d0 with
        | none => exact mapGet_mapSet_ne mp.providers d0 d p hd
        | some q => rfl

/-- The observable effect of one `forEach` pass of `clearSigners` over a list
of domain ids, on a state whose stored signers all carry providers: no throw,
domains untouched, every listed signer removed, and providers promoted per the
`unregisterSigner` rule at each listed id. -/
theorem clearSignersAux_spec (L : List Nat) :
    ∀ mp : MultiProvider,
      (∀ d s, mapGet mp.signers d = some s → s.provider ≠ none) →
      (clearSignersAux mp L).2 = none
      ∧ (clearSignersAux mp L).1.domains = mp.domains
      ∧ (∀ d, d ∈ L → mapGet (clearSignersAux mp L).1.signers d = none)
      ∧ (∀ d, d ∉ L → mapGet (clearSignersAux mp L).1.signers d
          = mapGet mp.signers d)
      ∧ (∀ d, d ∈ L → mapGet (clearSignersAux mp L).1.providers d
          = ((mapGet mp.providers d).orElse
              (fun _ => (mapGet mp.signers d).bind Signer.provider)))
      ∧ (∀ d, d ∉ L → mapGet (clearSignersAux mp L).1.providers d
          = mapGet mp.providers d) := by
  induction L with
  | nil =>
    intro mp h
    refine ⟨rfl, rfl, ?_, ?_, ?_, ?_⟩
    · intro d hd; cases hd
    · intro d _; rfl
    · intro d hd; cases hd
    · intro d _; rfl
  | cons d0 rest ih =>
    intro mp h
    obtain ⟨mp2, hu, hdom, hs0, hsne, hp0, hpne⟩ := unregisterSigner_num_step mp d0 h
    have h2 : ∀ d s, mapGet mp2.signers d = some s → s.provider ≠ none := by
      intro d s hds
      by_cases hdd : d = d0
      · subst hdd; rw [hs0] at hds; cases hds
      · rw [hsne d hdd] at hds; exact h d s hds
    obtain ⟨g0, g1, g2, g3, g4, g5⟩ := ih mp2 h2
    have heq : clearSignersAux mp (d0 :: rest) = clearSignersAux mp2 rest := by
      have hstep : clearSignersAux mp (d0 :: rest)
          = (match unregisterSigner mp (.num d0) with
             | .ok mp1 => clearSignersAux mp1 rest
             | .error e => (mp, some e)) := rfl
      rw [hstep, hu]
    rw [heq]
    refine ⟨g0, g1.trans hdom, ?_, ?_, ?_, ?_⟩
    · intro d hd
      rcases List.mem_cons.1 hd with rfl | hd'
      · by_cases hdr : d ∈ rest
        · exact g2 d hdr
        · rw [g3 d hdr]; exact hs0
      · exact g2 d hd'
    · intro d hd
      have hd0 : d ≠ d0 := fun hh => hd (hh ▸ List.mem_cons_self d0 rest)
      have hdr : d ∉ rest := fun hh => hd (List.mem_cons_of_mem d0 hh)
      rw [g3 d hdr, hsne d hd0]
    · intro d hd
      by_cases hdd : d = d0
      · subst hdd
        by_cases hdr : d ∈ rest
        · rw [g4 d hdr, hs0, hp0]
          simp only [Option.bind]
          rw [orElse_none]
        · rw [g5 d hdr, hp0]
      · rcases List.mem_cons.1 hd with h' | hd'
        · exact absurd h' hdd
        · rw [g4 d hd', hsne d hdd, hpne d hdd]
    · intro d hd
      have hd0 : d ≠ d0 := fun hh => hd (hh ▸ List.mem_cons_self d0 rest)
      have hdr : d ∉ rest := fun hh => hd (List.mem_cons_of_mem d0 hh)
      rw [g5 d hdr, hpne d hd0]

/-- Every reachable registry state satisfies the consistency invariant. -/
theorem reachable_good {mp : MultiProvider} (h : Reachable mp) : GoodState mp := by
  induction h with
  | init => exact good_emptyMP
  | domainStep d _ ih => exact good_registerDomain d ih
  | providerStep _ heq ih => exact good_registerProvider ih heq
  | rpcProviderStep _ heq ih => exact good_registerRpcProvider ih heq
  | signerStep _ heq ih => exact good_registerSigner ih heq
  | walletSignerStep _ heq ih => exact good_registerWalletSigner ih heq
  | unregisterStep _ heq ih => exact good_unregisterSigner ih heq
  | clearStep _ ih => exact good_clearSignersAux _ _ ih
  | overridesStep _ heq ih => exact good_registerOverrides ih heq
  | confirmationsStep _ heq ih => exact good_registerConfirmations ih heq

/-! ## The specification's `registerSigner` algorithm -/

/-- The `registerSigner` algorithm exactly as the specification words it
(section 4.2): resolve the domain; fail `MissingProvider` when neither the
registry nor the signer has a provider; with a registered provider, attempt
to produce a copy of the signer bound to it, storing that copy on success;
on binding failure fall through, failing `SignerHasNoProvider` when the
signer carries no provider of its own, and otherwise registering the
signer's own provider as the domain's provider (the registry's
provider-registration operation) and then storing the signer as-is. -/
def registerSignerSpec (mp : MultiProvider) (x : NameOrDomain) (signer : Signer) :
    Except RegistryError MultiProvider :=
  match resolveDomain mp x with
  | .error e => .error e
  | .ok domain =>
    match mapGet mp.providers domain with
    | some p =>
      match signer.connect p with
      | some bound => .ok { mp with signers := mapSet mp.signers domain bound }
      | none =>
        match signer.provider with
        | none => .error .SignerHasNoProvider
        | some sp =>
          match registerProvider mp (.num domain) sp with
          | .error e => .error e
          | .ok mp1 => .ok { mp1 with signers := mapSet mp1.signers domain signer }
    | none =>
      match signer.provider with
      | none => .error .MissingProvider
      | some sp =>
        match registerProvider mp (.num domain) sp with
        | .error e => .error e
        | .ok mp1 => .ok { mp1 with signers := mapSet mp1.signers domain signer }

/-! ## Claim C2 -/

/-- C2: `registerSigner(d, S)` follows exactly the specified algorithm: it
fails with `MissingProvider` when no provider is registered for `d` and `S`
carries no provider; if a provider is registered it attempts to bind `S` to
that registered provider and on success stores the bound signer and returns;
if binding fails it falls through, failing with `SignerHasNoProvider` when
`S` carries no provider of its own, and otherwise first registering `S`'s
own provider as `d`'s provider and then storing `S` as-is — an
already-registered provider always takes precedence over the provider
carried by the signer. -/
theorem registerSigner_follows_spec_algorithm (mp : MultiProvider)
    (x : NameOrDomain) (s : Signer) :
    registerSigner mp x s = registerSignerSpec mp x s := by
  unfold registerSigner registerSignerSpec registerSignerFallback
  cases hres : resolveDomain mp x with
  | error e => rfl
  | ok domain =>
    dsimp only
    cases hpp : mapGet mp.providers domain with
    | none =>
      cases hspr : s.provider with
      | none => rfl
      | some sp => rfl
    | some p =>
      cases hcc : s.canConnect with
      | true => simp [Signer.connect, hcc]
      | false => simp [Signer.connect, hcc]

/-! ## Claim C1 -/

/-- C1: in every registry state reachable by the public operations
(`registerDomain`, `registerProvider`, `registerRpcProvider`,
`registerSigner`, `registerWalletSigner`, `unregisterSigner`,
`clearSigners`), for every domain id `d`: if the signers map has an entry
for `d`, then either the providers map has an entry for `d` or that stored
signer's own provider reference is non-null — no operation leaves a signer
with no discoverable provider. -/
theorem signer_always_has_discoverable_provider {mp : MultiProvider}
    (hreach : Reachable mp) (d : Nat) (s : Signer)
    (hs : mapGet mp.signers d = some s) :
    mapHas mp.providers d = true ∨ s.provider ≠ none :=
  Or.inr ((reachable_good hreach).2.1 d s hs)

/-- The registry after registering domain `{id:1, name:"alpha"}` and a
provider for it. -/
def W1b : MultiProvider :=
  { domains := [(1, ⟨1, "alpha"⟩)], providers := [(1, .handle 0)],
    signers := [], overrides := [], confirmations := [] }

/-- `W1b` after registering a rebindable signer for domain 1. -/
def W1c : MultiProvider :=
  { domains := [(1, ⟨1, "alpha"⟩)], providers := [(1, .handle 0)],
    signers := [(1, ⟨"k", true, some (.handle 0)⟩)], overrides := [],
    confirmations := [] }

/-- Witness for C1 at a concrete reachable state with a stored signer. -/
theorem signer_always_has_discoverable_provider_witness :
    mapHas W1c.providers 1 = true
      ∨ (Signer.mk "k" true (some (.handle 0))).provider ≠ none := by
  have h1 : Reachable (registerDomain emptyMP ⟨1, "alpha"⟩) :=
    Reachable.domainStep ⟨1, "alpha"⟩ Reachable.init
  have h2 : Reachable W1b := Reachable.providerStep h1
    (show registerProvider (registerDomain emptyMP ⟨1, "alpha"⟩)
      (.num 1) (.handle 0) = .ok W1b by decide)
  have h3 : Reachable W1c := Reachable.signerStep h2
    (show registerSigner W1b (.num 1) ⟨"k", true, none⟩ = .ok W1c by decide)
  exact signer_always_has_discoverable_provider h3 1
    ⟨"k", true, some (.handle 0)⟩ (by decide)

/-! ## Claim C4 -/

/-- C4: `unregisterSigner(d)` is a no-op when no signer is registered for
`d`; when a signer is registered it raises `InvariantViolation` if and only
if the stored signer lacks a provider reference; on success it removes the
signer entry, and if no provider entry existed for `d` before the call,
`getProvider(d)` afterwards returns the removed signer's provider
reference. -/
theorem unregisterSigner_contract (mp : MultiProvider) (d : Nat) (s : Signer)
    (p : Provider) :
    (mapGet mp.signers d = none → unregisterSigner mp (.num d) = .ok mp)
    ∧ (mapGet mp.signers d = some s →
        (unregisterSigner mp (.num d) = .error .InvariantViolation
          ↔ s.provider = none))
    ∧ (mapGet mp.signers d = some s → s.provider = some p →
        ∃ mp', unregisterSigner mp (.num d) = .ok mp'
          ∧ mapGet mp'.signers d = none
          ∧ (mapGet mp.providers d = none →
              getProvider mp' (.num d) = .ok (some p))) := by
  refine ⟨unregisterSigner_none mp d, ?_, ?_⟩
  · intro hs
    constructor
    · intro herr
      cases hsp : s.provider with
      | none => rfl
      | some q =>
        rw [unregisterSigner_some mp d s q hs hsp] at herr
        exact Except.noConfusion herr
    · intro hsp
      exact unregisterSigner_noProv mp d s hs hsp
  · intro hs hsp
    refine ⟨_, unregisterSigner_some mp d s p hs hsp, ?_, ?_⟩
    · exact mapGet_mapDelete_self mp.signers d
    · intro hpn
      have hval : mapGet (match mapGet mp.providers d with
          | none => mapSet mp.providers d p
          | some _ => mp.providers) d = some p := by
        rw [hpn]
        exact mapGet_mapSet_self mp.providers d p
      exact congrArg Except.ok hval

/-- A registry with one domain, a signer carrying its own provider, and an
empty provider slot. -/
def W4 : MultiProvider :=
  { domains := [(1, ⟨1, "alpha"⟩)], providers := [],
    signers := [(1, ⟨"k", true, some (.handle 5)⟩)], overrides := [],
    confirmations := [] }

/-- Witness for C4: on `W4`, unregistering domain 2 is a no-op, and
unregistering domain 1 deletes the signer and promotes its provider. -/
theorem unregisterSigner_contract_witness :
    (unregisterSigner W4 (.num 2) = .ok W4)
    ∧ (∃ mp', unregisterSigner W4 (.num 1) = .ok mp'
        ∧ mapGet mp'.signers 1 = none
        ∧ (mapGet W4.providers 1 = none →
            getProvider mp' (.num 1) = .ok (some (.handle 5)))) := by
  constructor
  · exact (unregisterSigner_contract W4 2 ⟨"k", true, some (.handle 5)⟩
      (.handle 5)).1 (by decide)
  · exact (unregisterSigner_contract W4 1 ⟨"k", true, some (.handle 5)⟩
      (.handle 5)).2.2 (by decide) (by decide)

/-! ## Claim C3 -/

theorem registerProvider_num_detail (mp : MultiProvider) (d : Nat)
    (dom : Domain) (P : Provider) (hdom : mapGet mp.domains d = some dom)
    (hid : dom.id = d)
    (hsig : ∀ s0, mapGet mp.signers d = some s0 → s0.provider ≠ none) :
    ∃ mp1, registerProvider mp (.num d) P = .ok mp1
      ∧ mp1.domains = mp.domains
      ∧ mapGet mp1.providers d = some P
      ∧ (mapGet mp1.signers d = none
         ∨ ∃ s0, mapGet mp.signers d = some s0
             ∧ mapGet mp1.signers d = some { s0 with provider := some P }) := by
  subst hid
  have hmg : mustGetDomain mp (.num dom.id) = .ok dom := by
    simp only [mustGetDomain, mustGetFromMap, getFromMap, resolveDomain, hdom]
  cases hsg : mapGet mp.signers dom.id with
  | none =>
    exact ⟨_, registerProvider_eq_noSigner hmg hsg, rfl,
      mapGet_mapSet_self mp.providers dom.id P, Or.inl hsg⟩
  | some s0 =>
    cases hcc : s0.canConnect with
    | true =>
      have hc : s0.connect P = some { s0 with provider := some P } := by
        simp [Signer.connect, hcc]
      exact ⟨_, registerProvider_eq_reconnect hmg hsg hc, rfl,
        mapGet_mapSet_self mp.providers dom.id P,
        Or.inr ⟨s0, rfl, mapGet_mapSet_self mp.signers dom.id _⟩⟩
    | false =>
      have hc : s0.connect P = none := by simp [Signer.connect, hcc]
      cases hsp : s0.provider with
      | none => exact absurd hsp (hsig s0 hsg)
      | some p0 =>
        have hu := unregisterSigner_some mp dom.id s0 p0 hsg hsp
        exact ⟨_, registerProvider_eq_dropSigner hmg hsg hc hu, rfl,
          mapGet_mapSet_self _ dom.id P,
          Or.inl (mapGet_mapDelete_self mp.signers dom.id)⟩

/-- C3: after `registerProvider(d, P1)` then `registerProvider(d, P2)`,
`getProvider(d)` is `P2` (last write wins); and for a domain with a
registered signer `S` bound to provider `P1`, after `registerProvider(d,P2)`
the registered signer is `S` rebound to `P2` when `S` supports rebinding,
and `getSigner(d)` is undefined afterwards when `S` does not support
rebinding (the stale signer is dropped). -/
theorem registerProvider_last_write_wins_and_rebinds
    (mp : MultiProvider) (d : Nat) (dom : Domain) (P1 P2 : Provider)
    (S : Signer) (hdom : mapGet mp.domains d = some dom) (hid : dom.id = d) :
    ((∀ s0, mapGet mp.signers d = some s0 → s0.provider ≠ none) →
      ∃ mp1 mp2, registerProvider mp (.num d) P1 = .ok mp1
        ∧ registerProvider mp1 (.num d) P2 = .ok mp2
        ∧ getProvider mp2 (.num d) = .ok (some P2))
    ∧ (mapGet mp.signers d = some S → S.provider = some P1 →
      ∃ mp', registerProvider mp (.num d) P2 = .ok mp'
        ∧ (S.canConnect = true →
            getSigner mp' (.num d) = .ok (some { S with provider := some P2 }))
        ∧ (S.canConnect = false → getSigner mp' (.num d) = .ok none)) := by
  constructor
  · intro hsig
    obtain ⟨mp1, h1, hd1, hp1, hs1⟩ :=
      registerProvider_num_detail mp d dom P1 hdom hid hsig
    have hdom1 : mapGet mp1.domains d = some dom := by rw [hd1]; exact hdom
    have hsig1 : ∀ s0, mapGet mp1.signers d = some s0 → s0.provider ≠ none := by
      intro s0 hs0
      rcases hs1 with hnone | ⟨s0', -, hsome⟩
      · rw [hnone] at hs0; exact Option.noConfusion hs0
      · rw [hsome] at hs0
        rw [← Option.some.inj hs0]
        simp
    obtain ⟨mp2, h2, -, hp2, -⟩ :=
      registerProvider_num_detail mp1 d dom P2 hdom1 hid hsig1
    exact ⟨mp1, mp2, h1, h2, congrArg Except.ok hp2⟩
  · intro hS hSp
    subst hid
    have hmg : mustGetDomain mp (.num dom.id) = .ok dom := by
      simp only [mustGetDomain, mustGetFromMap, getFromMap, resolveDomain, hdom]
    by_cases hcc : S.canConnect = true
    · have hc : S.connect P2 = some { S with provider := some P2 } := by
        simp [Signer.connect, hcc]
      refine ⟨_, registerProvider_eq_reconnect hmg hS hc, ?_, ?_⟩
      · intro _
        exact congrArg Except.ok (mapGet_mapSet_self mp.signers dom.id _)
      · intro hfalse
        rw [hcc] at hfalse
        exact Bool.noConfusion hfalse
    · have hc : S.connect P2 = none := by simp [Signer.connect, hcc]
      have hu := unregisterSigner_some mp dom.id S P1 hS hSp
      refine ⟨_, registerProvider_eq_dropSigner hmg hS hc hu, ?_, ?_⟩
      · intro htrue; exact absurd htrue hcc
      · intro _
        exact congrArg Except.ok (mapGet_mapDelete_self mp.signers dom.id)

/-- A registry with domain 1, provider `handle 1` and a non-rebindable
signer bound to `handle 1`. -/
def W3 : MultiProvider :=
  { domains := [(1, ⟨1, "alpha"⟩)], providers := [(1, .handle 1)],
    signers := [(1, ⟨"k", false, some (.handle 1)⟩)], overrides := [],
    confirmations := [] }

/-- Witness for C3 on `W3`: both registrations succeed, the final provider
is `handle 2`, and since the signer does not support rebinding it is gone
afterwards. -/
theorem registerProvider_last_write_wins_and_rebinds_witness :
    (∃ mp1 mp2, registerProvider W3 (.num 1) (.handle 1) = .ok mp1
      ∧ registerProvider mp1 (.num 1) (.handle 2) = .ok mp2
      ∧ getProvider mp2 (.num 1) = .ok (some (.handle 2)))
    ∧ (∃ mp', registerProvider W3 (.num 1) (.handle 2) = .ok mp'
      ∧ ((Signer.mk "k" false (some (.handle 1))).canConnect = true →
          getSigner mp' (.num 1)
            = .ok (some ⟨"k", false, some (.handle 2)⟩))
      ∧ ((Signer.mk "k" false (some (.handle 1))).canConnect = false →
          getSigner mp' (.num 1) = .ok none)) := by
  have h := registerProvider_last_write_wins_and_rebinds W3 1 ⟨1, "alpha"⟩
    (.handle 1) (.handle 2) ⟨"k", false, some (.handle 1)⟩ (by decide)
    (by decide)
  refine ⟨h.1 ?_, h.2 (by decide) (by decide)⟩
  intro s0 hs0
  have hs0' : some (Signer.mk "k" false (some (.handle 1))) = some s0 := hs0
  rw [← Option.some.inj hs0']
  simp

/-! ## Claim C6 -/

theorem find?_eq_head_filter (l : List α) (p : α → Bool) :
    l.find? p = (l.filter p).head? := by
  induction l with
  | nil => rfl
  | cons a t ih =>
    by_cases hpa : p a = true
    · rw [List.find?_cons_of_pos t hpa, List.filter_cons_of_pos hpa]; rfl
    · rw [List.find?_cons_of_neg t (by simpa using hpa),
        List.filter_cons_of_neg (by simpa using hpa)]
      exact ih

/-- C6: for every registered domain `D`, `resolveDomain` on any letter-casing
of `D.name` returns `D.id` — by a case-insensitive scan returning the first
match in registration-iteration order, captured by `List.find?` over the
values in insertion order; `resolveDomain` on a number returns it unchanged;
and a string matching no registered domain fails with `DomainNotFound`. -/
theorem resolveDomain_contract (mp : MultiProvider) (s : String) (n : Nat)
    (D : Domain) :
    ((mapValues mp.domains).find? (fun d => strLower d.name == strLower s)
        = some D → resolveDomain mp (.name s) = .ok D.id)
    ∧ resolveDomain mp (.num n) = .ok n
    ∧ ((mapValues mp.domains).find? (fun d => strLower d.name == strLower s)
        = none → resolveDomain mp (.name s) = .error (.DomainNotFound s)) := by
  refine ⟨?_, rfl, ?_⟩
  · intro hf
    rw [find?_eq_head_filter] at hf
    show (match (mapValues mp.domains).filter
        (fun d => strLower d.name == strLower s) with
      | [] => Except.error (RegistryError.DomainNotFound s)
      | d :: _ => Except.ok d.id) = Except.ok D.id
    cases hfil : (mapValues mp.domains).filter
        (fun d => strLower d.name == strLower s) with
    | nil => rw [hfil] at hf; exact Option.noConfusion hf
    | cons D' t =>
      rw [hfil] at hf
      have hD : D' = D := Option.some.inj hf
      show Except.ok D'.id = Except.ok D.id
      rw [hD]
  · intro hf
    rw [find?_eq_head_filter] at hf
    show (match (mapValues mp.domains).filter
        (fun d => strLower d.name == strLower s) with
      | [] => Except.error (RegistryError.DomainNotFound s)
      | d :: _ => Except.ok d.id) = Except.error (.DomainNotFound s)
    cases hfil : (mapValues mp.domains).filter
        (fun d => strLower d.name == strLower s) with
    | nil => rfl
    | cons D' t => rw [hfil] at hf; exact Option.noConfusion hf

/-- A registry with the single domain `{id:1, name:"alpha"}` registered. -/
def W6 : MultiProvider :=
  { domains := [(1, ⟨1, "alpha"⟩)], providers := [], signers := [],
    overrides := [], confirmations := [] }

/-- Witness for C6: with domain `{id:1, name:"alpha"}` registered, the
upper-cased string `"ALPHA"` resolves to `1`, the raw number `7` resolves to
itself, and the unknown string `"unknown-name"` fails `DomainNotFound`. -/
theorem resolveDomain_contract_witness :
    resolveDomain W6 (.name "ALPHA") = .ok 1
    ∧ resolveDomain W6 (.num 7) = .ok 7
    ∧ resolveDomain W6 (.name "unknown-name")
        = .error (.DomainNotFound "unknown-name") := by
  refine ⟨?_, ?_, ?_⟩
  · exact (resolveDomain_contract W6 "ALPHA" 7 ⟨1, "alpha"⟩).1 (by decide)
  · exact (resolveDomain_contract W6 "ALPHA" 7 ⟨1, "alpha"⟩).2.1
  · exact (resolveDomain_contract W6 "unknown-name" 7 ⟨1, "alpha"⟩).2.2
      (by decide)

/-! ## Claim C5 -/

/-- C5: on every reachable registry state, `clearSigners()` completes
without throwing, leaves `domainNumbers` unchanged, leaves `getSigner(d)`
undefined for every domain id `d` (registered or not), and transforms each
provider entry per the `unregisterSigner` promotion rule: an existing
provider entry is kept, and an empty slot receives the removed signer's
provider when a signer was present. -/
theorem clearSigners_clears_and_preserves {mp : MultiProvider}
    (hreach : Reachable mp) :
    ∃ mp', clearSigners mp = (mp', none)
      ∧ domainNumbers mp' = domainNumbers mp
      ∧ (∀ d, getSigner mp' (.num d) = .ok none)
      ∧ (∀ d, mapGet mp'.providers d = ((mapGet mp.providers d).orElse
          (fun _ => (mapGet mp.signers d).bind Signer.provider))) := by
  obtain ⟨g1, g2, g3, g4⟩ := reachable_good hreach
  obtain ⟨c0, c1, c2, c3, c4, c5⟩ := clearSignersAux_spec (domainNumbers mp) mp g2
  refine ⟨(clearSignersAux mp (domainNumbers mp)).1, ?_, ?_, ?_, ?_⟩
  · have hpair : clearSigners mp
        = ((clearSignersAux mp (domainNumbers mp)).1,
           (clearSignersAux mp (domainNumbers mp)).2) := rfl
    rw [hpair, c0]
  · exact congrArg mapKeys c1
  · intro d
    have hsd : mapGet (clearSignersAux mp (domainNumbers mp)).1.signers d
        = none := by
      by_cases hdL : d ∈ domainNumbers mp
      · exact c2 d hdL
      · rw [c3 d hdL]
        cases hms : mapGet mp.signers d with
        | none => rfl
        | some s =>
          exact absurd ((mapHas_mem_mapKeys mp.domains d).1 (g3 d s hms)) hdL
    exact congrArg Except.ok hsd
  · intro d
    by_cases hdL : d ∈ domainNumbers mp
    · exact c4 d hdL
    · rw [c5 d hdL]
      have hms : mapGet mp.signers d = none := by
        cases hms : mapGet mp.signers d with
        | none => rfl
        | some s =>
          exact absurd ((mapHas_mem_mapKeys mp.domains d).1 (g3 d s hms)) hdL
      rw [hms]
      simp only [Option.bind]
      rw [orElse_none]

/-- The registry after registering domain `{id:1, name:"alpha"}` and
provider `handle 3` for it. -/
def W5b : MultiProvider :=
  { domains := [(1, ⟨1, "alpha"⟩)], providers := [(1, .handle 3)],
    signers := [], overrides := [], confirmations := [] }

/-- `W5b` after registering a rebindable signer for domain 1. -/
def W5c : MultiProvider :=
  { domains := [(1, ⟨1, "alpha"⟩)], providers := [(1, .handle 3)],
    signers := [(1, ⟨"w", true, some (.handle 3)⟩)], overrides := [],
    confirmations := [] }

/-- Witness for C5 at the concrete reachable state `W5c`. -/
theorem clearSigners_clears_and_preserves_witness :
    ∃ mp', clearSigners W5c = (mp', none)
      ∧ domainNumbers mp' = domainNumbers W5c
      ∧ (∀ d, getSigner mp' (.num d) = .ok none)
      ∧ (∀ d, mapGet mp'.providers d = ((mapGet W5c.providers d).orElse
          (fun _ => (mapGet W5c.signers d).bind Signer.provider))) := by
  apply clearSigners_clears_and_preserves
  have h1 : Reachable (registerDomain emptyMP ⟨1, "alpha"⟩) :=
    Reachable.domainStep ⟨1, "alpha"⟩ Reachable.init
  have h2 : Reachable W5b := Reachable.providerStep h1
    (show registerProvider (registerDomain emptyMP ⟨1, "alpha"⟩)
      (.num 1) (.handle 3) = .ok W5b by decide)
  exact Reachable.signerStep h2
    (show registerSigner W5b (.num 1) ⟨"w", true, none⟩ = .ok W5c by decide)

/-! ## Claim C7 (corrected) -/

/-- C7 counterexample: `registerProvider` invoked with the raw numeric id 5
on a fresh registry — an id never passed to `registerDomain` — fails with
`NotFound "Domain"`: contrary to the claim, a number-referenced
`registerProvider` does not bypass the Domain Directory; it performs an
existence check via `mustGetDomain` and fails precisely because the id is
unregistered. -/
theorem registerProvider_num_requires_domain_cex :
    registerProvider emptyMP (.num 5) (.handle 0)
      = .error (.NotFound "Domain") := by decide

/-- C7 (amended): Policy Store operations, the plain getters and signer
removal invoked with a numeric domain id bypass the Domain Directory and
operate on the raw id, succeeding even when that id was never registered;
but `registerProvider` with an unregistered numeric id fails with
`NotFound "Domain"`, and `registerSigner` with an unregistered numeric id
(whose raw id also has no provider entry) fails as well —
`MissingProvider` when the signer carries no provider, and
`NotFound "Domain"` (raised by the fallback's `registerProvider`) when it
does. -/
theorem numeric_id_directory_bypass_amended (mp : MultiProvider) (d : Nat)
    (ov : Overrides) (c : Nat) (P : Provider) (S : Signer) :
    (∃ mp1, registerOverrides mp (.num d) ov = .ok mp1)
    ∧ (∃ mp2, registerConfirmations mp (.num d) c = .ok mp2)
    ∧ (∃ o, getOverrides mp (.num d) = .ok o)
    ∧ (∃ k, getConfirmations mp (.num d) = .ok k)
    ∧ (∃ po, getProvider mp (.num d) = .ok po)
    ∧ (∃ so, getSigner mp (.num d) = .ok so)
    ∧ (mapGet mp.signers d = none → unregisterSigner mp (.num d) = .ok mp)
    ∧ (mapHas mp.domains d = false →
        registerProvider mp (.num d) P = .error (.NotFound "Domain"))
    ∧ (mapHas mp.domains d = false → mapGet mp.providers d = none →
        S.provider = none →
        registerSigner mp (.num d) S = .error .MissingProvider)
    ∧ (mapHas mp.domains d = false → mapGet mp.providers d = none →
        S.provider = some P →
        registerSigner mp (.num d) S = .error (.NotFound "Domain")) := by
  have hnotfound : mapHas mp.domains d = false →
      registerProvider mp (.num d) P = .error (.NotFound "Domain") := by
    intro hd
    have hget : mapGet mp.domains d = none := by
      cases hg : mapGet mp.domains d with
      | none => rfl
      | some v =>
        rw [mapGet_isSome_of_some hg] at hd
        exact Bool.noConfusion hd
    have hmg : mustGetDomain mp (.num d) = .error (.NotFound "Domain") := by
      simp only [mustGetDomain, mustGetFromMap, getFromMap, resolveDomain, hget]
    exact registerProvider_errOfMust hmg
  refine ⟨⟨_, rfl⟩, ⟨_, rfl⟩, ⟨_, rfl⟩, ?_, ⟨_, rfl⟩, ⟨_, rfl⟩,
    unregisterSigner_none mp d, hnotfound, ?_, ?_⟩
  · cases hc' : mapGet mp.confirmations d with
    | none => exact ⟨0, by simp only [getConfirmations, getFromMap_num, hc']⟩
    | some v =>
      exact ⟨if v == 0 then 0 else v,
        by simp only [getConfirmations, getFromMap_num, hc']⟩
  · intro _ hpn hsn
    simp [registerSigner, resolveDomain, hpn, hsn]
  · intro hd hpn hsp
    have hrp := hnotfound hd
    simp [registerSigner, resolveDomain, registerSignerFallback, hpn, hsp, hrp]

/-- Witness for C7 (amended) at concrete inputs: on the fresh registry and
the unregistered id 5, the policy write succeeds while `registerProvider`
and both `registerSigner` shapes fail as amended. -/
theorem numeric_id_directory_bypass_amended_witness :
    (∃ mp1, registerOverrides emptyMP (.num 5) [("gasLimit", 1)] = .ok mp1)
    ∧ registerProvider emptyMP (.num 5) (.handle 0)
        = .error (.NotFound "Domain")
    ∧ registerSigner emptyMP (.num 5) ⟨"k", true, none⟩
        = .error .MissingProvider
    ∧ registerSigner emptyMP (.num 5) ⟨"k", true, some (.handle 0)⟩
        = .error (.NotFound "Domain") := by
  have h := numeric_id_directory_bypass_amended emptyMP 5 [("gasLimit", 1)] 2
    (.handle 0) ⟨"k", true, none⟩
  have h' := numeric_id_directory_bypass_amended emptyMP 5 [("gasLimit", 1)] 2
    (.handle 0) ⟨"k", true, some (.handle 0)⟩
  exact ⟨h.1, h.2.2.2.2.2.2.2.1 (by decide),
    h.2.2.2.2.2.2.2.2.1 (by decide) (by decide) (by decide),
    h'.2.2.2.2.2.2.2.2.2 (by decide) (by decide) (by decide)⟩

/-! ## Claim C8 (corrected) -/

/-- The provider of the spec's concrete scenario. -/
def P8 : Provider := .handle 7

/-- The scenario's signer: no rebind support, carries `P8`. -/
def S8 : Signer := ⟨"s", false, some P8⟩

/-- The registry after `registerDomain {id:1, name:"alpha"}` and
`registerProvider(1, P8)`. -/
def W8b : MultiProvider :=
  { domains := [(1, ⟨1, "alpha"⟩)], providers := [(1, P8)],
    signers := [], overrides := [], confirmations := [] }

/-- `W8b` after `registerSigner("Alpha", S8)`. -/
def W8c : MultiProvider :=
  { domains := [(1, ⟨1, "alpha"⟩)], providers := [(1, P8)],
    signers := [(1, S8)], overrides := [], confirmations := [] }

/-- C8 counterexample: in the concrete scenario — domain
`{id:1, name:"alpha"}` registered, provider `P8` registered for id 1, then
`registerSigner("Alpha", S8)` with `S8` not supporting rebinding but
carrying `P8` — the provider-present branch's attempt to bind `S8` to the
registered provider throws (`S8.connect P8 = none`), so no "S bound to P"
copy exists and the provider-present branch produces nothing; the call
still succeeds, and the stored signer is the original `S8` itself, stored
as-is by the fallback branch — contradicting the claim that `getSigner(1)`
is a signer produced by the provider-present branch. -/
theorem scenario_not_provider_present_branch_cex :
    Signer.connect S8 P8 = none
    ∧ mapGet W8b.providers 1 = some P8
    ∧ registerSigner W8b (.name "Alpha") S8 = .ok W8c
    ∧ mapGet W8c.signers 1 = some S8 := by
  refine ⟨by decide, by decide, by decide, by decide⟩

/-- C8 (amended): in the concrete scenario no error is raised and
`getSigner(1)` afterwards equals `S8` itself, stored as-is by the fallback
branch (its binding attempt having thrown); `S8` carries provider `P8`, and
`getProvider(1)` is `P8`. -/
theorem scenario_fallback_stores_signer_asis :
    registerSigner W8b (.name "Alpha") S8 = .ok W8c
    ∧ getSigner W8c (.num 1) = .ok (some S8)
    ∧ S8.provider = some P8
    ∧ getProvider W8c (.num 1) = .ok (some P8) := by
  refine ⟨by decide, by decide, by decide, by decide⟩

/-! ## Claim C9 -/

/-- C9: for any domain id with no explicit policy registration — including
ids never passed to `registerDomain` — `getOverrides` returns the empty bag
(never undefined) and `getConfirmations` returns `0`. -/
theorem policy_defaults (mp : MultiProvider) (d : Nat)
    (hov : mapGet mp.overrides d = none)
    (hcf : mapGet mp.confirmations d = none) :
    getOverrides mp (.num d) = .ok ([] : Overrides)
      ∧ getConfirmations mp (.num d) = .ok 0 := by
  constructor
  · simp only [getOverrides, getFromMap_num, hov]
    rfl
  · simp only [getConfirmations, getFromMap_num, hcf]

/-- Witness for C9: on the fresh registry, domain id `42` — never registered
anywhere — yields the empty overrides bag and confirmation count `0`. -/
theorem policy_defaults_witness :
    getOverrides emptyMP (.num 42) = .ok ([] : Overrides)
      ∧ getConfirmations emptyMP (.num 42) = .ok 0 :=
  policy_defaults emptyMP 42 rfl rfl

/-! ## Claim C10 -/

/-- C10: the `missingProviders` getter returns exactly the registered domain
numbers for which a provider entry IS present in the providers map — despite
its name, it lists the domains that have providers, not the registered
domains that lack one. -/
theorem missingProviders_lists_domains_with_providers (mp : MultiProvider)
    (d : Nat) :
    d ∈ missingProviders mp
      ↔ (d ∈ domainNumbers mp ∧ mapHas mp.providers d = true) := by
  unfold missingProviders
  exact List.mem_filter

end MultiProviderSpec
